import Mathlib

/-!
Verification of the document-to-context pipeline of the rag-trl-calculator
backend: section-aware chunk splitting (backend/processing/document_processor.py),
indexing with per-technology processing flags (backend/processing/indexer.py),
and two-collection retrieval fusion plus token-budgeted context assembly
(backend/retrieval/context_retriever.py).

External collaborators (the HF tokenizer, the embedder, the ChromaDB vector
store, the filesystem) are modelled as abstract parameters; everything else is
a direct translation of the Python source.
-/

/-! ## Shared data model -/

/-- A metadata dictionary, modelled as an association list of string keys to
string values (Python dict semantics for the keys the code reads). -/
abbrev Meta := List (String × String)

/-- Python dict.get(key): the first binding of the key, if any. -/
def metaGet (m : Meta) (k : String) : Option String :=
  (m.find? (fun kv => kv.fst == k)).map (·.snd)

/-- Python truthiness of a dict: an empty dict is falsy. -/
def metaTruthy (m : Meta) : Bool := !m.isEmpty

/-- Python str.strip(): drop leading and trailing whitespace. -/
def pyStrip (s : String) : String :=
  String.mk (((s.data.dropWhile Char.isWhitespace).reverse.dropWhile Char.isWhitespace).reverse)

/-- Distances returned by the vector store: a finite rational, or the
substituted infinity from float inf. none stands for infinity. -/
abbrev DistVal := Option ℚ

/-- Comparison on distances as Python float comparison behaves with inf:
infinity is greater than or equal to everything, every finite value is
less than or equal to infinity. Used as the sort key comparator. -/
def distLE : DistVal → DistVal → Bool
  | _, none => true
  | none, some _ => false
  | some a, some b => decide (a ≤ b)

/-! ## document_processor.py, lines 41-55: the coarse paragraph split and the
single-newline fallback heuristic inside create_semantic_chunks. -/

/-- The coarse split: text.split with blank-line boundaries (line 41). -/
def coarseParagraphs (text : String) : List String :=
  text.splitOn "\n\n"

/-- The alternative split by single newlines keeping non-empty stripped
lines (line 48). -/
def altParagraphs (text : String) : List String :=
  ((text.splitOn "\n").map pyStrip).filter (fun p => p != "")

/-- The paragraph list create_semantic_chunks actually iterates over
(lines 41-55): the coarse split, replaced by the single-newline split when
the coarse split has fewer than 20 blocks and the alternative has more than
three times as many parts. -/
def chooseParagraphSplit (text : String) : List String :=
  let paragraphs := coarseParagraphs text
  if paragraphs.length < 20 then
    let alt_paragraphs := altParagraphs text
    if alt_paragraphs.length > paragraphs.length * 3 then alt_paragraphs
    else paragraphs
  else paragraphs

/-! ## indexer.py: processing flags, chunk ids, remove, and indexing. -/

/-- The module-level processing_status dict: technology id to flag. -/
abbrev PStatus := String → Option Bool

/-- is_processing (indexer.py lines 14-15): dict get with default False. -/
def is_processing (st : PStatus) (technology_id : String) : Bool :=
  (st technology_id).getD false

/-- Assignment processing_status[tech_id] = v. -/
def updateStatus (st : PStatus) (tech_id : String) (v : Bool) : PStatus :=
  fun s => if s = tech_id then some v else st s

/-- Python str.replace restricted to single-character old and new patterns,
which is exactly how indexer.py uses it: every occurrence of the character
is replaced. -/
def replaceChar (s : String) (c r : Char) : String :=
  String.mk (s.data.map (fun d => if d = c then r else d))

/-- Filename sanitization (indexer.py line 129): replace dots and dashes
with underscores. -/
def filename_safe (filename : String) : String :=
  replaceChar (replaceChar filename '.' '_') '-' '_'

/-- Chunk id generation (indexer.py line 130): tech id, sanitized filename
and sequential index joined with underscores. -/
def unique_ids (tech_id : String) (filename : String) (n : Nat) : List String :=
  (List.range n).map (fun i => tech_id ++ "_" ++ filename_safe filename ++ "_" ++ toString i)

/-- A chunk as stored in a ChromaDB collection: its id and its metadata,
as returned by collection.get(). -/
structure StoredChunk where
  id : String
  metadata : Meta
deriving Repr, DecidableEq

/-- The per-chunk condition of the removal loop (indexer.py line 33): a
truthy metadata dict whose source equals the filename. -/
def removeMatch (filename : String) (c : StoredChunk) : Bool :=
  metaTruthy c.metadata && (metaGet c.metadata "source" == some filename)

/-- remove_document_from_index (indexer.py lines 17-46), with the store
modelled as the list of stored chunks: collect the ids of chunks matching
the filename, delete them if there are any, and return True either way,
together with the resulting collection. -/
def remove_document_from_index (collection : List StoredChunk) (filename : String) :
    Bool × List StoredChunk :=
  let ids_to_remove := (collection.filter (removeMatch filename)).map (fun c => c.id)
  if !ids_to_remove.isEmpty then
    (true, collection.filter (fun c => !ids_to_remove.contains c.id))
  else
    (true, collection)

/-- A chunk produced by create_semantic_chunks: its text and metadata dict.
The splitter itself is the external RecursiveCharacterTextSplitter. -/
structure ChunkData where
  text : String
  metadata : Meta
deriving Repr, DecidableEq

/-- Python dict assignment metadata[k] = v: overwrite the binding. -/
def metaSet (m : Meta) (k v : String) : Meta :=
  (k, v) :: m.filter (fun kv => kv.fst != k)

/-- The external world of one process_and_index_document run. File-system
path operations, PDF extraction, the chunker, the embedder and the store
add call are collaborators outside this core; each fallible one is an
Except whose error stands for a raised exception. -/
structure IndexEnv where
  file_extension : String
  filename : String
  pdfExtract : Except Unit String
  txtRead : Except Unit String
  chunksOf : String → Except Unit (List ChunkData)
  embedsOf : List String → Except Unit (List (List ℚ))
  addCall : List String → List (List ℚ) → List Meta → List String → Except Unit Unit

/-- The tail of process_and_index_document after text extraction
(indexer.py lines 94-140): the empty-text, empty-chunks and
embedding-count checks, id generation and the store add, each early
return clearing the processing flag. -/
def indexText (env : IndexEnv) (tech_id : String) (st : PStatus) (text_content : String) :
    Except Unit (Bool × PStatus) :=
  if pyStrip text_content = "" then .ok (false, updateStatus st tech_id false)
  else
    match env.chunksOf text_content with
    | .error e => .error e
    | .ok chunks0 =>
      let chunks_data := chunks0.map (fun c => { c with metadata := metaSet c.metadata "source" env.filename })
      if chunks_data.isEmpty then .ok (false, updateStatus st tech_id false)
      else
        let chunk_texts := chunks_data.map (fun c => c.text)
        let chunk_metadatas := chunks_data.map (fun c => c.metadata)
        match env.embedsOf chunk_texts with
        | .error e => .error e
        | .ok chunk_embeddings =>
          if chunk_embeddings.length ≠ chunk_texts.length then
            .ok (false, updateStatus st tech_id false)
          else
            let ids := unique_ids tech_id env.filename chunk_texts.length
            match env.addCall chunk_texts chunk_embeddings chunk_metadatas ids with
            | .error e => .error e
            | .ok _ => .ok (true, updateStatus st tech_id false)

/-- The try body of process_and_index_document (indexer.py lines 53-140):
dispatch on the file extension. The PDF branch has its own inner
try/except that catches extraction errors and returns False with the flag
cleared; the text branch propagates read errors to the outer handler;
unsupported extensions return False with the flag cleared. -/
def indexTry (env : IndexEnv) (tech_id : String) (st : PStatus) :
    Except Unit (Bool × PStatus) :=
  if env.file_extension = ".pdf" then
    match env.pdfExtract with
    | .error _ => .ok (false, updateStatus st tech_id false)
    | .ok text_content => indexText env tech_id st text_content
  else if env.file_extension = ".txt" ∨ env.file_extension = ".md" then
    match env.txtRead with
    | .error e => .error e
    | .ok text_content => indexText env tech_id st text_content
  else .ok (false, updateStatus st tech_id false)

/-- process_and_index_document (indexer.py lines 48-144): set the
processing flag, run the body, and let the outer except clear the flag
and return False on any raised exception. -/
def process_and_index_document (env : IndexEnv) (tech_id : String) (st : PStatus) :
    Bool × PStatus :=
  let st1 := updateStatus st tech_id true
  match indexTry env tech_id st1 with
  | .ok r => r
  | .error _ => (false, updateStatus st1 tech_id false)

/-! ## context_retriever.py: retrieval fusion and context assembly. -/

/-- A passage record as built by _process_collection_results_with_scores. -/
structure Passage where
  text : String
  metadata : Meta
  source_document : String
  source_section : String
  distance : DistVal
deriving Repr, DecidableEq

/-- A raw ChromaDB query result: per-query lists of documents, metadatas
and distances, each field possibly absent (None). -/
structure QueryRes where
  documents : Option (List (List String))
  metadatas : Option (List (List Meta))
  distances : Option (List (List DistVal))
deriving Repr

/-- Python truthiness of tech_id inside the result processor: None and the
empty string are falsy. -/
def strOptTruthy : Option String → Bool
  | none => false
  | some s => s != ""

/-- The metadata row used by the result processor (context_retriever.py
line 69): the first metadatas row when present with matching length,
otherwise one empty dict per document. -/
def selectMetas (r : QueryRes) (docs : List String) : List Meta :=
  match r.metadatas with
  | some (ms :: _) => if ms.length = docs.length then ms else List.replicate docs.length []
  | _ => List.replicate docs.length []

/-- The distances row used by the result processor (context_retriever.py
line 70): the first distances row when present with matching length,
otherwise one infinity per document. -/
def selectDists (r : QueryRes) (docs : List String) : List DistVal :=
  match r.distances with
  | some (ds :: _) => if ds.length = docs.length then ds else List.replicate docs.length none
  | _ => List.replicate docs.length none

/-- Build one passage record from one (document, metadata, distance)
triple (context_retriever.py lines 72-89). -/
def mkPassage (tech_id : Option String) (doc_text : String) (meta_info : Meta)
    (distance : DistVal) : Passage :=
  let source_doc_name :=
    if strOptTruthy tech_id then
      (metaGet meta_info "source").getD ("Tech " ++ tech_id.getD "" ++ " Document")
    else "Glossário TRL"
  let section_name0 := (metaGet meta_info "section").getD "N/A"
  let section_name :=
    if strOptTruthy tech_id = false ∧ metaGet meta_info "type" = some "glossary_chunk" then
      "Termo(s): " ++ ((metaGet meta_info "terms").getD "N/A")
    else section_name0
  { text := doc_text
    metadata := meta_info
    source_document := source_doc_name
    source_section := section_name
    distance := distance }

/-- _process_collection_results_with_scores (context_retriever.py lines
64-90): guard on a truthy result with a non-empty first document row, fall
back to empty dicts and infinite distances when the metadata or distance
rows are absent or mismatched, and build one passage per document. -/
def _process_collection_results_with_scores (res : Option QueryRes) (tech_id : Option String) :
    List Passage :=
  match res with
  | none => []
  | some r =>
    match r.documents with
    | some (docs :: _) =>
      if docs.length > 0 then
        let metas := selectMetas r docs
        let distances := selectDists r docs
        (docs.zip (metas.zip distances)).map
          (fun x => mkPassage tech_id x.fst x.snd.fst x.snd.snd)
      else []
    | _ => []

/-- The documents the store handed back for one query: the first document
row when the guard of the result processor can see one, else nothing. -/
def docsOf : Option QueryRes → List String
  | none => []
  | some r =>
    match r.documents with
    | some (docs :: _) => docs
    | _ => []

/-- The still-processing error message (context_retriever.py line 19). -/
def stillProcessingMsg : String := "Document is still being processed. Please wait."

/-- The comparator get_cached_search sorts with: ascending distance. -/
def passageLE (a b : Passage) : Bool := distLE a.distance b.distance

/-- get_cached_search (context_retriever.py lines 15-62), with the two
collections modelled as query functions from the requested result count to
a raw result. Refuse when the technology is flagged as processing; else
query both collections for k * 2 candidates, concatenate, sort ascending
by distance and keep the first k. -/
def get_cached_search (st : PStatus) (techQuery trlQuery : Nat → Option QueryRes)
    (tech_id : String) (k : Nat) : Except String (List Passage) :=
  if is_processing st tech_id then .error stillProcessingMsg
  else
    let tech_candidates := _process_collection_results_with_scores (techQuery (k * 2)) (some tech_id)
    let trl_candidates := _process_collection_results_with_scores (trlQuery (k * 2)) none
    let all_candidates := tech_candidates ++ trl_candidates
    let sorted := all_candidates.mergeSort passageLE
    .ok (sorted.take k)


/-- The external HF tokenizer interface used by trim_for_ctx: encode a
string to token ids and decode token ids back to a string. -/
structure Tokenizer where
  encode : String → List Nat
  decode : List Nat → String

/-- The formatted passage text with its source prefix (context_retriever.py
lines 130-133). -/
def formatPassage (passage_obj : Passage) : String :=
  "Fonte: " ++ passage_obj.source_document ++ ", Seção: " ++ passage_obj.source_section
    ++ "\n" ++ passage_obj.text

/-- Token length of a formatted part under a tokenizer. -/
def tokenLen (tok : Tokenizer) (s : String) : Nat := (tok.encode s).length

/-- The passage-selection loop of trim_for_ctx (context_retriever.py lines
128-148): accept each passage whose formatted token length still fits the
running total; at the first overflow, truncate it at the token level when
nothing was accepted yet, otherwise stop. Returns the accepted parts and
the final running token total. -/
def trimLoop (tok : Tokenizer) (limit : Nat) :
    List Passage → Nat → List String → List String × Nat
  | [], total_tokens, parts => (parts, total_tokens)
  | passage_obj :: rest, total_tokens, parts =>
    let full_passage_text := formatPassage passage_obj
    let passage_tokens := tokenLen tok full_passage_text
    if total_tokens + passage_tokens ≤ limit then
      trimLoop tok limit rest (total_tokens + passage_tokens) (parts ++ [full_passage_text])
    else if parts.isEmpty then
      let token_ids := tok.encode full_passage_text
      let truncated_text := tok.decode (token_ids.take limit)
      (parts ++ [truncated_text], tokenLen tok truncated_text)
    else (parts, total_tokens)

/-- Fixed message for an empty passage list (context_retriever.py line 127). -/
def noContextMsg : String := "Nenhum contexto específico encontrado."

/-- Fixed message when passages were given but the assembled context is
blank (context_retriever.py line 153). -/
def tooLargeMsg : String :=
  "Contexto fornecido era muito grande para o limite de tokens e não pôde ser incluído."

/-- Fixed fallback message of the final return (context_retriever.py line 154). -/
def noPreparedMsg : String :=
  "Nenhum contexto específico pôde ser preparado dentro do limite de tokens."

/-- The separator joining accepted parts (context_retriever.py line 149). -/
def ctxSeparator : String := "\n\n---\n\n"

/-- trim_for_ctx (context_retriever.py lines 117-154): empty input yields
the no-context message; otherwise run the selection loop, join the parts,
and return the joined context unless it is blank, in which case the
too-large message is returned. -/
def trim_for_ctx (tok : Tokenizer) (passages : List Passage) (limit : Nat) : String :=
  if passages.isEmpty then noContextMsg
  else
    let selected_context_parts := (trimLoop tok limit passages 0 []).fst
    let final_context_str := String.intercalate ctxSeparator selected_context_parts
    if pyStrip final_context_str = "" ∧ passages.isEmpty = false then tooLargeMsg
    else if pyStrip final_context_str ≠ "" then final_context_str
    else noPreparedMsg

/-! ## Concrete instances used by witnesses and counterexamples -/

/-- A concrete tokenizer mapping each character to one token id, with the
inverse decoding: a stand-in for the external HF tokenizer on which the
assembler's behavior can be computed. -/
def charTok : Tokenizer where
  encode := fun s => s.data.map Char.toNat
  decode := fun ts => String.mk (ts.map Char.ofNat)

/-- A degenerate tokenizer whose decoding is always empty, exhibiting the
blank-assembly edge case. -/
def zeroTok : Tokenizer where
  encode := fun _ => [0, 0]
  decode := fun _ => ""

/-- A concrete passage used by witnesses. -/
def pW : Passage :=
  { text := "x", metadata := [], source_document := "D", source_section := "S",
    distance := none }

/-- A concrete raw query result with one document, absent metadatas and a
length-mismatched distances row. -/
def resW : Option QueryRes :=
  some { documents := some [["d"]], metadatas := none, distances := some [[]] }

/-- The passage the result processor builds from resW. -/
def pOut : Passage := mkPassage none "d" [] none

/-- The metadatas row is usable by the result processor: present,
non-empty, and its first row matches the documents in length. -/
def metasUsable (r : QueryRes) (docs : List String) : Prop :=
  ∃ ms tl, r.metadatas = some (ms :: tl) ∧ ms.length = docs.length

/-- The distances row is usable by the result processor: present,
non-empty, and its first row matches the documents in length. -/
def distsUsable (r : QueryRes) (docs : List String) : Prop :=
  ∃ ds tl, r.distances = some (ds :: tl) ∧ ds.length = docs.length

/-! ## Theorems -/

/-- C9: create_semantic_chunks first splits on blank-line boundaries, and
switches to the single-newline split exactly when the blank-line split
yields fewer than 20 blocks and the single-newline split yields more than
3 times as many parts; otherwise the blank-line split is kept. -/
theorem paragraph_split_heuristic (text : String) :
    chooseParagraphSplit text =
      if (coarseParagraphs text).length < 20 ∧
          (altParagraphs text).length > 3 * (coarseParagraphs text).length then
        altParagraphs text
      else coarseParagraphs text := by
  have hc : chooseParagraphSplit text =
      if (coarseParagraphs text).length < 20 then
        if (altParagraphs text).length > (coarseParagraphs text).length * 3 then
          altParagraphs text
        else coarseParagraphs text
      else coarseParagraphs text := rfl
  rw [hc]
  by_cases h1 : (coarseParagraphs text).length < 20
  · by_cases h2 : (altParagraphs text).length > (coarseParagraphs text).length * 3
    · rw [if_pos h1, if_pos h2, if_pos ⟨h1, by omega⟩]
    · rw [if_pos h1, if_neg h2, if_neg (by rintro ⟨hA, hB⟩; omega)]
  · rw [if_neg h1, if_neg (by rintro ⟨hA, hB⟩; exact h1 hA)]

/-- C6 (code bug evidence): the filename sanitization of indexer.py maps
the distinct filenames a.b and a-b to the same sanitized form, so for the
same technology id the generated chunk ids coincide. -/
theorem chunk_id_collision :
    "a.b" ≠ "a-b" ∧
    filename_safe "a.b" = filename_safe "a-b" ∧
    unique_ids "t" "a.b" 1 = ["t_a_b_0"] ∧
    unique_ids "t" "a-b" 1 = ["t_a_b_0"] := by
  refine ⟨by decide, by decide, ?_, ?_⟩ <;> decide

/-- C4: while the technology's processing flag is true, get_cached_search
refuses to run with the distinct still-processing error; it never returns
a result list, in particular never an empty one. -/
theorem still_processing_refusal (st : PStatus) (techQuery trlQuery : Nat → Option QueryRes)
    (tech_id : String) (k : Nat) (h : is_processing st tech_id = true) :
    get_cached_search st techQuery trlQuery tech_id k = .error stillProcessingMsg ∧
    ∀ l : List Passage, get_cached_search st techQuery trlQuery tech_id k ≠ .ok l := by
  have hg : get_cached_search st techQuery trlQuery tech_id k = .error stillProcessingMsg := by
    unfold get_cached_search
    rw [if_pos]
    exact h
  exact ⟨hg, fun l hl => by rw [hg] at hl; exact Except.noConfusion hl⟩

/-- Witness for still_processing_refusal at a processing-flagged state. -/
theorem still_processing_refusal_witness :
    is_processing (fun _ => some true) "t" = true ∧
    get_cached_search (fun _ => some true) (fun _ => none) (fun _ => none) "t" 3
      = .error stillProcessingMsg :=
  ⟨rfl, (still_processing_refusal (fun _ => some true) (fun _ => none) (fun _ => none)
    "t" 3 rfl).1⟩

/-- The fusion comparator is transitive. -/
theorem passageLE_trans : ∀ a b c : Passage,
    passageLE a b = true → passageLE b c = true → passageLE a c = true := by
  intro a b c h1 h2
  rcases a with ⟨_, _, _, _, da⟩
  rcases b with ⟨_, _, _, _, db⟩
  rcases c with ⟨_, _, _, _, dc⟩
  simp only [passageLE, distLE] at h1 h2 ⊢
  cases da <;> cases db <;> cases dc <;> simp_all
  exact le_trans h1 h2

/-- The fusion comparator is total. -/
theorem passageLE_total : ∀ a b : Passage, passageLE a b || passageLE b a := by
  intro a b
  rcases a with ⟨_, _, _, _, da⟩
  rcases b with ⟨_, _, _, _, db⟩
  simp only [passageLE, distLE]
  cases da <;> cases db <;> simp_all
  exact le_total _ _

/-- C1: with the processing flag false, retrieval queries both collections
for 2k candidates, concatenates the processed candidate lists, sorts them
ascending by distance and returns the first k, so the result has length
min k (total candidates) and non-decreasing distances. -/
theorem retrieval_fusion_topk (st : PStatus) (techQuery trlQuery : Nat → Option QueryRes)
    (tech_id : String) (k : Nat) (h : is_processing st tech_id = false) :
    ∃ l : List Passage,
      get_cached_search st techQuery trlQuery tech_id k = .ok l ∧
      l = ((_process_collection_results_with_scores (techQuery (k * 2)) (some tech_id) ++
            _process_collection_results_with_scores (trlQuery (k * 2)) none).mergeSort
              passageLE).take k ∧
      l.length = min k
        ((_process_collection_results_with_scores (techQuery (k * 2)) (some tech_id)).length +
         (_process_collection_results_with_scores (trlQuery (k * 2)) none).length) ∧
      l.Pairwise (fun a b => passageLE a b = true) := by
  refine ⟨_, ?_, rfl, ?_, ?_⟩
  · unfold get_cached_search
    rw [if_neg]
    rw [h]
    exact Bool.false_ne_true
  · rw [List.length_take, List.length_mergeSort, List.length_append]
  · exact List.Pairwise.sublist (List.take_sublist k _)
      (List.sorted_mergeSort passageLE_trans passageLE_total _)

/-- Witness for retrieval_fusion_topk on a clear flag and empty stores. -/
theorem retrieval_fusion_topk_witness :
    is_processing (fun _ => none) "t" = false ∧
    ∃ l : List Passage,
      get_cached_search (fun _ => none) (fun _ => none) (fun _ => none) "t" 2 = .ok l ∧
      l = ((_process_collection_results_with_scores ((fun _ => none : Nat → Option QueryRes) (2 * 2)) (some "t") ++
            _process_collection_results_with_scores ((fun _ => none : Nat → Option QueryRes) (2 * 2)) none).mergeSort
              passageLE).take 2 ∧
      l.length = min 2
        ((_process_collection_results_with_scores ((fun _ => none : Nat → Option QueryRes) (2 * 2)) (some "t")).length +
         (_process_collection_results_with_scores ((fun _ => none : Nat → Option QueryRes) (2 * 2)) none).length) ∧
      l.Pairwise (fun a b => passageLE a b = true) :=
  ⟨rfl, retrieval_fusion_topk (fun _ => none) (fun _ => none) (fun _ => none) "t" 2 rfl⟩

/-- Clearing the flag for a technology makes is_processing false for it. -/
theorem is_processing_update_false (st : PStatus) (tech_id : String) :
    is_processing (updateStatus st tech_id false) tech_id = false := by
  simp [is_processing, updateStatus]

/-- Every normal return of the post-extraction phase carries the cleared
flag state. -/
theorem indexText_ok (env : IndexEnv) (tech_id : String) (st : PStatus)
    (text_content : String) (r : Bool × PStatus)
    (h : indexText env tech_id st text_content = .ok r) :
    r.snd = updateStatus st tech_id false := by
  simp only [indexText] at h
  split at h
  · cases h; rfl
  · split at h
    · cases h
    · split at h
      · cases h; rfl
      · split at h
        · cases h
        · split at h
          · cases h; rfl
          · split at h
            · cases h
            · cases h; rfl

/-- Every normal return of the try body carries the cleared flag state. -/
theorem indexTry_ok (env : IndexEnv) (tech_id : String) (st : PStatus)
    (r : Bool × PStatus) (h : indexTry env tech_id st = .ok r) :
    r.snd = updateStatus st tech_id false := by
  simp only [indexTry] at h
  split at h
  · split at h
    · cases h; rfl
    · exact indexText_ok env tech_id st _ r h
  · split at h
    · split at h
      · cases h
      · exact indexText_ok env tech_id st _ r h
    · cases h; rfl

/-- C5: every terminating execution path of process_and_index_document
leaves the technology's processing flag false on exit, whether the run
succeeds, aborts early, or raises. -/
theorem processing_flag_cleared (env : IndexEnv) (tech_id : String) (st : PStatus) :
    is_processing (process_and_index_document env tech_id st).snd tech_id = false := by
  simp only [process_and_index_document]
  split
  · next r h =>
      rw [indexTry_ok env tech_id _ r h]
      exact is_processing_update_false _ tech_id
  · exact is_processing_update_false _ tech_id

/-- When no chunk matches the filename, remove_document_from_index returns
True and leaves the collection unchanged. -/
theorem remove_no_match (collection : List StoredChunk) (filename : String)
    (h : ∀ c ∈ collection, removeMatch filename c = false) :
    remove_document_from_index collection filename = (true, collection) := by
  have hf : collection.filter (removeMatch filename) = [] := by
    apply List.filter_eq_nil_iff.mpr
    intro a ha
    simp [h a ha]
  simp [remove_document_from_index, hf]

/-- After one removal pass, no chunk of the file remains in the collection. -/
theorem remove_snd_no_match (collection : List StoredChunk) (filename : String) :
    ∀ c ∈ (remove_document_from_index collection filename).snd,
      removeMatch filename c = false := by
  intro c hc
  cases hq : removeMatch filename c with
  | false => rfl
  | true =>
    exfalso
    simp only [remove_document_from_index] at hc
    split at hc
    · rw [List.mem_filter] at hc
      obtain ⟨hcol, hnotin⟩ := hc
      have hid : c.id ∈ (collection.filter (removeMatch filename)).map (fun c => c.id) :=
        List.mem_map.mpr ⟨c, List.mem_filter.mpr ⟨hcol, hq⟩, rfl⟩
      have hcontains :
          ((collection.filter (removeMatch filename)).map (fun c => c.id)).contains c.id
            = true :=
        List.elem_iff.mpr hid
      rw [hcontains] at hnotin
      exact Bool.noConfusion hnotin
    · next hne =>
      have hid : c.id ∈ (collection.filter (removeMatch filename)).map (fun c => c.id) :=
        List.mem_map.mpr ⟨c, List.mem_filter.mpr ⟨hc, hq⟩, rfl⟩
      have : (collection.filter (removeMatch filename)).map (fun c => c.id) = [] := by
        rcases hh : (collection.filter (removeMatch filename)).map (fun c => c.id) with _ | ⟨x, xs⟩
        · exact hh
        · exact absurd (by rw [hh]; rfl) hne
      rw [this] at hid
      exact List.not_mem_nil _ hid

/-- C7: remove_document_from_index is idempotent, and when no chunk of the
file is indexed it returns True and leaves the collection untouched. -/
theorem remove_noop_idempotent (collection : List StoredChunk) (filename : String) :
    ((∀ c ∈ collection, removeMatch filename c = false) →
      remove_document_from_index collection filename = (true, collection)) ∧
    remove_document_from_index (remove_document_from_index collection filename).snd filename
      = (true, (remove_document_from_index collection filename).snd) :=
  ⟨remove_no_match collection filename,
   remove_no_match _ filename (remove_snd_no_match collection filename)⟩

/-- Witness for remove_noop_idempotent: removing a never-indexed file from
a one-chunk collection returns True and changes nothing. -/
theorem remove_noop_idempotent_witness :
    remove_document_from_index [{ id := "id1", metadata := [("source", "a.txt")] }] "missing.pdf"
      = (true, [{ id := "id1", metadata := [("source", "a.txt")] }]) :=
  (remove_noop_idempotent [{ id := "id1", metadata := [("source", "a.txt")] }] "missing.pdf").1
    (by decide)

/-- Joining a single part with the separator is that part. -/
theorem intercalate_singleton (s a : String) : String.intercalate s [a] = a := rfl

/-- For a non-empty passage list, trim_for_ctx returns the joined accepted
parts, or the too-large message when the joined string strips to blank. -/
theorem trim_for_ctx_eq (tok : Tokenizer) (passages : List Passage) (limit : Nat)
    (hne : passages ≠ []) :
    trim_for_ctx tok passages limit =
      (if pyStrip (String.intercalate ctxSeparator (trimLoop tok limit passages 0 []).fst) = ""
       then tooLargeMsg
       else String.intercalate ctxSeparator (trimLoop tok limit passages 0 []).fst) := by
  have hie : passages.isEmpty = false := by simpa [List.isEmpty_eq_false] using hne
  by_cases hb :
      pyStrip (String.intercalate ctxSeparator (trimLoop tok limit passages 0 []).fst) = ""
  · simp [trim_for_ctx, hie, hb]
  · simp [trim_for_ctx, hie, hb]

/-- The selection loop's accepted parts stay within the budget, except when
it starts with no accepted part and truncates an oversized first passage. -/
theorem trimLoop_budget (tok : Tokenizer) (limit : Nat) :
    ∀ (ps : List Passage) (total : Nat) (parts : List String),
      (parts.map (tokenLen tok)).sum = total → total ≤ limit →
      ((((trimLoop tok limit ps total parts).fst.map (tokenLen tok)).sum ≤ limit) ∨
       (parts = [] ∧ ∃ p rest, ps = p :: rest ∧ limit < tokenLen tok (formatPassage p) ∧
         (trimLoop tok limit ps total parts).fst =
           [tok.decode ((tok.encode (formatPassage p)).take limit)])) := by
  intro ps
  induction ps with
  | nil =>
    intro total parts hsum hle
    left
    simpa [trimLoop, hsum] using hle
  | cons p rest ih =>
    intro total parts hsum hle
    by_cases hfits : total + tokenLen tok (formatPassage p) ≤ limit
    · have heq : trimLoop tok limit (p :: rest) total parts =
          trimLoop tok limit rest (total + tokenLen tok (formatPassage p))
            (parts ++ [formatPassage p]) := by
        simp [trimLoop, hfits]
      rw [heq]
      have hsum2 : ((parts ++ [formatPassage p]).map (tokenLen tok)).sum =
          total + tokenLen tok (formatPassage p) := by
        simp [hsum]
      rcases ih (total + tokenLen tok (formatPassage p)) (parts ++ [formatPassage p])
          hsum2 hfits with hl | ⟨hpe, _⟩
      · exact Or.inl hl
      · exact absurd hpe (by simp)
    · by_cases hparts : parts.isEmpty
      · have hpe : parts = [] := List.isEmpty_iff.mp hparts
        subst hpe
        have htot : total = 0 := by simpa using hsum.symm
        subst htot
        right
        refine ⟨rfl, p, rest, rfl, by omega, ?_⟩
        have hfits2 : ¬ tokenLen tok (formatPassage p) ≤ limit := by omega
        simp [trimLoop, hfits2]
      · left
        have heq : trimLoop tok limit (p :: rest) total parts = (parts, total) := by
          simp [trimLoop, hfits, hparts]
        rw [heq, hsum]
        exact hle

/-- C2: for every non-empty passage list and budget, the token lengths of
the accepted formatted passages sum to at most the budget, except exactly
when the lone accepted part is the truncated oversized first passage. -/
theorem trim_budget_bound (tok : Tokenizer) (limit : Nat) (passages : List Passage)
    (hne : passages ≠ []) :
    ((((trimLoop tok limit passages 0 []).fst.map (tokenLen tok)).sum ≤ limit) ∨
     (∃ p rest, passages = p :: rest ∧ limit < tokenLen tok (formatPassage p) ∧
       (trimLoop tok limit passages 0 []).fst =
         [tok.decode ((tok.encode (formatPassage p)).take limit)])) := by
  rcases trimLoop_budget tok limit passages 0 [] (by simp) (Nat.zero_le _) with hl | hr
  · exact Or.inl hl
  · exact Or.inr hr.2

/-- Witness for trim_budget_bound on a small passage and a roomy budget. -/
theorem trim_budget_bound_witness :
    ([pW] ≠ ([] : List Passage)) ∧
    ((((trimLoop charTok 100 [pW] 0 []).fst.map (tokenLen charTok)).sum ≤ 100) ∨
     (∃ p rest, [pW] = p :: rest ∧ 100 < tokenLen charTok (formatPassage p) ∧
       (trimLoop charTok 100 [pW] 0 []).fst =
         [charTok.decode ((charTok.encode (formatPassage p)).take 100)])) :=
  ⟨by decide, trim_budget_bound charTok 100 [pW] (by decide)⟩

/-- C3 (amended): when the first formatted passage alone exceeds the
budget, the assembler truncates it at the token level to exactly the
budget many token ids and accepts it as the sole part; the returned string
is that truncated text when its stripped form is non-blank, and the fixed
too-large message otherwise. -/
theorem trim_truncation_amended (tok : Tokenizer) (p : Passage) (rest : List Passage)
    (limit : Nat) (h : limit < tokenLen tok (formatPassage p)) :
    ((tok.encode (formatPassage p)).take limit).length = limit ∧
    (trimLoop tok limit (p :: rest) 0 []).fst =
      [tok.decode ((tok.encode (formatPassage p)).take limit)] ∧
    trim_for_ctx tok (p :: rest) limit =
      (if pyStrip (tok.decode ((tok.encode (formatPassage p)).take limit)) = ""
       then tooLargeMsg
       else tok.decode ((tok.encode (formatPassage p)).take limit)) := by
  have hfits2 : ¬ tokenLen tok (formatPassage p) ≤ limit := by omega
  have hloop : (trimLoop tok limit (p :: rest) 0 []).fst =
      [tok.decode ((tok.encode (formatPassage p)).take limit)] := by
    simp [trimLoop, hfits2]
  refine ⟨?_, hloop, ?_⟩
  · rw [List.length_take]
    have hlen : limit ≤ (tok.encode (formatPassage p)).length := by
      simpa [tokenLen] using Nat.le_of_lt h
    omega
  · rw [trim_for_ctx_eq tok (p :: rest) limit (by simp), hloop, intercalate_singleton]

/-- Witness for trim_truncation_amended: a 20-token passage against budget
1 comes back as its first decoded token. -/
theorem trim_truncation_amended_witness :
    1 < tokenLen charTok (formatPassage pW) ∧
    (((charTok.encode (formatPassage pW)).take 1).length = 1 ∧
     (trimLoop charTok 1 [pW] 0 []).fst =
       [charTok.decode ((charTok.encode (formatPassage pW)).take 1)] ∧
     trim_for_ctx charTok [pW] 1 =
       (if pyStrip (charTok.decode ((charTok.encode (formatPassage pW)).take 1)) = ""
        then tooLargeMsg
        else charTok.decode ((charTok.encode (formatPassage pW)).take 1))) :=
  ⟨by decide, trim_truncation_amended charTok pW [] 1 (by decide)⟩

/-- C3 counterexample: with budget 0 the first formatted passage alone
exceeds the budget, yet the returned string is not the truncated passage
(the code returns the too-large message instead). -/
theorem trim_truncation_counterexample :
    0 < tokenLen charTok (formatPassage pW) ∧
    trim_for_ctx charTok [pW] 0 ≠
      charTok.decode ((charTok.encode (formatPassage pW)).take 0) := by
  refine ⟨by decide, by decide⟩

/-- C8: the assembler returns the fixed no-candidates message on an empty
passage list, the distinct fixed too-large message when passages were
given but the assembled context strips to blank, and the two messages
differ. -/
theorem context_messages :
    (∀ (tok : Tokenizer) (limit : Nat), trim_for_ctx tok [] limit = noContextMsg) ∧
    (∀ (tok : Tokenizer) (passages : List Passage) (limit : Nat),
      passages ≠ [] →
      pyStrip (String.intercalate ctxSeparator (trimLoop tok limit passages 0 []).fst) = "" →
      trim_for_ctx tok passages limit = tooLargeMsg) ∧
    noContextMsg ≠ tooLargeMsg := by
  refine ⟨fun tok limit => rfl, ?_, by decide⟩
  intro tok passages limit hne hblank
  rw [trim_for_ctx_eq tok passages limit hne, if_pos hblank]

/-- Witness for context_messages on a concrete degenerate tokenizer. -/
theorem context_messages_witness :
    trim_for_ctx zeroTok [] 0 = noContextMsg ∧
    ([pW] ≠ ([] : List Passage)) ∧
    pyStrip (String.intercalate ctxSeparator (trimLoop zeroTok 0 [pW] 0 []).fst) = "" ∧
    trim_for_ctx zeroTok [pW] 0 = tooLargeMsg ∧
    noContextMsg ≠ tooLargeMsg :=
  ⟨context_messages.1 zeroTok 0, by decide, by decide,
   context_messages.2.1 zeroTok [pW] 0 (by decide) (by decide), context_messages.2.2⟩

/-- The selected metadata row always matches the documents in length. -/
theorem length_selectMetas (r : QueryRes) (docs : List String) :
    (selectMetas r docs).length = docs.length := by
  unfold selectMetas
  split
  · split
    · assumption
    · simp
  · simp

/-- The selected distances row always matches the documents in length. -/
theorem length_selectDists (r : QueryRes) (docs : List String) :
    (selectDists r docs).length = docs.length := by
  unfold selectDists
  split
  · split
    · assumption
    · simp
  · simp

/-- When the metadatas row is absent or mismatched, one empty dict per
document is substituted. -/
theorem selectMetas_default (r : QueryRes) (docs : List String)
    (h : ¬ metasUsable r docs) :
    selectMetas r docs = List.replicate docs.length [] := by
  unfold selectMetas
  split
  · next ms tl heq =>
      rw [if_neg]
      intro hlen
      exact h ⟨ms, tl, heq, hlen⟩
  · rfl

/-- When the distances row is absent or mismatched, one infinite distance
per document is substituted. -/
theorem selectDists_default (r : QueryRes) (docs : List String)
    (h : ¬ distsUsable r docs) :
    selectDists r docs = List.replicate docs.length none := by
  unfold selectDists
  split
  · next ds tl heq =>
      rw [if_neg]
      intro hlen
      exact h ⟨ds, tl, heq, hlen⟩
  · rfl

/-- The metadata field of a built passage is the raw metadata dict. -/
theorem mkPassage_metadata (t : Option String) (a : String) (m : Meta) (d : DistVal) :
    (mkPassage t a m d).metadata = m := rfl

/-- The distance field of a built passage is the raw distance. -/
theorem mkPassage_distance (t : Option String) (a : String) (m : Meta) (d : DistVal) :
    (mkPassage t a m d).distance = d := rfl

/-- C10: the result processor is total, returning one passage per returned
document; absent or mismatched metadata and distance rows are replaced by
empty dicts and infinite distances; and under the fusion comparator an
infinite distance sorts after every finite one. -/
theorem process_results_defaults (res : Option QueryRes) (tech_id : Option String) :
    (_process_collection_results_with_scores res tech_id).length = (docsOf res).length ∧
    (∀ r, res = some r → ¬ metasUsable r (docsOf res) →
      ∀ p ∈ _process_collection_results_with_scores res tech_id, p.metadata = []) ∧
    (∀ r, res = some r → ¬ distsUsable r (docsOf res) →
      ∀ p ∈ _process_collection_results_with_scores res tech_id, p.distance = none) ∧
    (∀ q : ℚ, distLE (some q) none = true ∧ distLE none (some q) = false) := by
  refine ⟨?_, ?_, ?_, fun q => ⟨rfl, rfl⟩⟩
  · rcases res with _ | r
    · rfl
    · rcases hd : r.documents with _ | ds
      · simp [_process_collection_results_with_scores, docsOf, hd]
      · rcases ds with _ | ⟨docs, dss⟩
        · simp [_process_collection_results_with_scores, docsOf, hd]
        · rcases docs with _ | ⟨d, ds2⟩
          · simp [_process_collection_results_with_scores, docsOf, hd]
          · simp only [_process_collection_results_with_scores, docsOf, hd]
            rw [if_pos (by simp)]
            rw [List.length_map, List.length_zip, List.length_zip,
              length_selectMetas, length_selectDists]
            simp
  · rintro r rfl hnm p hp
    rcases hd : r.documents with _ | ds
    · simp [_process_collection_results_with_scores, hd] at hp
    · rcases ds with _ | ⟨docs, dss⟩
      · simp [_process_collection_results_with_scores, hd] at hp
      · rcases docs with _ | ⟨d, ds2⟩
        · simp [_process_collection_results_with_scores, hd] at hp
        · simp only [_process_collection_results_with_scores, hd] at hp
          rw [if_pos (by simp)] at hp
          simp only [docsOf, hd] at hnm
          obtain ⟨x, hx, hxp⟩ := List.mem_map.mp hp
          rcases x with ⟨a, m, dist⟩
          have hm : m ∈ selectMetas r (d :: ds2) := (List.of_mem_zip (List.of_mem_zip hx).2).1
          rw [selectMetas_default r (d :: ds2) hnm] at hm
          have hme : m = [] := List.eq_of_mem_replicate hm
          rw [← hxp, mkPassage_metadata, hme]
  · rintro r rfl hnd p hp
    rcases hd : r.documents with _ | ds
    · simp [_process_collection_results_with_scores, hd] at hp
    · rcases ds with _ | ⟨docs, dss⟩
      · simp [_process_collection_results_with_scores, hd] at hp
      · rcases docs with _ | ⟨d, ds2⟩
        · simp [_process_collection_results_with_scores, hd] at hp
        · simp only [_process_collection_results_with_scores, hd] at hp
          rw [if_pos (by simp)] at hp
          simp only [docsOf, hd] at hnd
          obtain ⟨x, hx, hxp⟩ := List.mem_map.mp hp
          rcases x with ⟨a, m, dist⟩
          have hdist : dist ∈ selectDists r (d :: ds2) :=
            (List.of_mem_zip (List.of_mem_zip hx).2).2
          rw [selectDists_default r (d :: ds2) hnd] at hdist
          have hde : dist = none := List.eq_of_mem_replicate hdist
          rw [← hxp, mkPassage_distance, hde]

/-- Witness for process_results_defaults at a concrete result with absent
metadatas and a mismatched distances row. -/
theorem process_results_defaults_witness :
    (_process_collection_results_with_scores resW none).length = (docsOf resW).length ∧
    pOut ∈ _process_collection_results_with_scores resW none ∧
    pOut.metadata = [] ∧ pOut.distance = none ∧
    distLE (some (1 : ℚ)) none = true ∧ distLE none (some (1 : ℚ)) = false := by
  refine ⟨(process_results_defaults resW none).1, by decide, ?_, ?_,
    ((process_results_defaults resW none).2.2.2 1).1,
    ((process_results_defaults resW none).2.2.2 1).2⟩
  · exact (process_results_defaults resW none).2.1 _ rfl
      (by rintro ⟨ms, tl, heq, hlen⟩; exact Option.noConfusion heq) pOut (by decide)
  · exact (process_results_defaults resW none).2.2.1 _ rfl
      (by rintro ⟨ds, tl, heq, hlen⟩; simp [resW] at heq; rw [heq.1] at hlen; simp [docsOf, resW] at hlen)
      pOut (by decide)
